import Mathlib

/-!
Verification of the two core engines of `src/App.tsx` of `llmmarkdown`:
the markdown auto-repair function `autoFixMarkdown(text, enabled)` and the
smoothed streaming scheduler `useSmartStream(fullText, isStreaming, minSpeed,
maxSpeed)`.  Both are embedded shallowly over `List Char` / `Nat` / `Int`;
each definition carries the line of the source it translates.
-/

namespace LlmMarkdown

/-- Helper for stage 1 (`App.tsx` line 17, the regex `/!!!(.*?)!!!/g`): the
lazy search for a closing `!!!` from the position right after an opening
`!!!`.  The regex metacharacter `.` does not match a newline, so the lazy
content `(.*?)` grows one non-newline character at a time until the literal
`!!!` matches; the first `!!!` reachable without crossing a newline closes the
span.  Returns `some (content, rest)` — the span's content and the characters
after the closing marker — or `none` when the current line has no close. -/
def findClose : List Char → Option (List Char × List Char)
  | [] => none
  | c :: rest =>
    if c = '!' ∧ rest.take 2 = ['!', '!'] then some ([], rest.drop 2)
    else if c = '\n' then none
    else (findClose rest).map (fun p => (c :: p.1, p.2))

/-- Fuel-indexed form of stage 1, `text.replace(/!!!(.*?)!!!/g, ':spoiler[$1]')`
(`App.tsx` line 17).  The regex engine scans left to right: at each position
it tries to match a literal `!!!` followed by a lazily closed single-line span
(`findClose`); on success it emits `:spoiler[` content `]` and resumes right
after the match, on failure it emits the current character and moves one
position on.  Every step consumes at least one input character, so fuel equal
to the input length always suffices (`spoilerScan_eq_spoilerSubst`). -/
def spoilerScan : Nat → List Char → List Char
  | 0, l => l
  | _ + 1, [] => []
  | fuel + 1, c :: rest =>
    if c = '!' ∧ rest.take 2 = ['!', '!'] then
      match findClose (rest.drop 2) with
      | some (content, rest2) =>
        ':' :: 's' :: 'p' :: 'o' :: 'i' :: 'l' :: 'e' :: 'r' :: '[' ::
          (content ++ ']' :: spoilerScan fuel rest2)
      | none => c :: spoilerScan fuel rest
    else c :: spoilerScan fuel rest

/-- Stage 1 of `autoFixMarkdown` (`App.tsx` line 17): the unconditional
directive substitution rewriting every lazily matched single-line `!!!X!!!`
span into `:spoiler[X]`. -/
def spoilerSubst (l : List Char) : List Char := spoilerScan l.length l

/-- Number of matches of the global regex `/```/g` (`App.tsx` line 22):
non-overlapping occurrences of the fence marker, scanning left to right and
resuming after each match. -/
def countTriple : List Char → Nat
  | '`' :: '`' :: '`' :: rest => countTriple rest + 1
  | _ :: rest => countTriple rest
  | [] => 0

/-- Number of matches of the global regex `/\$\$/g` (`App.tsx` line 29):
non-overlapping occurrences of the block-formula marker. -/
def countDollarDollar : List Char → Nat
  | '$' :: '$' :: rest => countDollarDollar rest + 1
  | _ :: rest => countDollarDollar rest
  | [] => 0

/-- `lines[lines.length - 1] || ''` after `processedText.split('\n')`
(`App.tsx` lines 37-38): the segment after the last newline — the whole text
when there is none, and `[]` for a text ending in a newline (the `|| ''`
fallback). -/
def lastLine (l : List Char) : List Char := ((l.splitOn '\n').getLastD [])

/-- Match of the bold regex `\*\*[^\*]*\s*$` (`App.tsx` line 46) anchored at
the head of `l`: a literal `**` followed to the end of the string by
characters other than `*`.  The trailing `\s*` is redundant for matching:
whitespace already satisfies `[^\*]`, and `\s` can never match the `*` that
would stop `[^\*]*`, so the suffix after `**` must simply be `*`-free. -/
def boldAtHere : List Char → Bool
  | c1 :: c2 :: rest => c1 = '*' && c2 = '*' && rest.all (fun c => c != '*')
  | _ => false

/-- `/\*\*[^\*]*\s*$/.test(processedText)` (`App.tsx` line 46): the regex
engine tries every start position in turn. -/
def boldHeuristic : List Char → Bool
  | [] => false
  | c :: rest => boldAtHere (c :: rest) || boldHeuristic rest

/-- Match of `[^\]]*\]\([^\)]*$` — the part of the link regex after the
opening bracket (`App.tsx` line 53): `[^\]]*` cannot cross a `]`, so the
first `]` must be followed immediately by `(` and then by no `)` up to the
end of the string. -/
def linkAfterBracket : List Char → Bool
  | ']' :: '(' :: rest => rest.all (fun c => c != ')')
  | ']' :: _ => false
  | _ :: rest => linkAfterBracket rest
  | [] => false

/-- `/(\!\[|\[)[^\]]*\]\([^\)]*$/.test(processedText)` (`App.tsx` line 53).
The `\!\[` alternative is subsumed for a `.test` by the `\[` one — a match of
`![…` at position `p` contains a match of `[…` at `p + 1` — so the test
succeeds iff some `[` begins a matching tail. -/
def linkHeuristic : List Char → Bool
  | [] => false
  | '[' :: rest => linkAfterBracket rest || linkHeuristic rest
  | _ :: rest => linkHeuristic rest

/-- The whitespace class of JavaScript (`\s`, `String.prototype.trimEnd`):
tab, LF, VT, FF, CR, space, NBSP, Ogham space, the U+2000 block, line and
paragraph separators, narrow no-break space, mathematical space, ideographic
space and the BOM. -/
def isJsWhitespace (c : Char) : Bool :=
  c.val = 9 || c.val = 10 || c.val = 11 || c.val = 12 || c.val = 13 ||
  c.val = 32 || c.val = 0xa0 || c.val = 0x1680 ||
  (0x2000 ≤ c.val && c.val ≤ 0x200a) || c.val = 0x2028 || c.val = 0x2029 ||
  c.val = 0x202f || c.val = 0x205f || c.val = 0x3000 || c.val = 0xfeff

/-- `processedText.trimEnd()` (`App.tsx` line 48): drop trailing JavaScript
whitespace. -/
def trimEnd (l : List Char) : List Char := (l.reverse.dropWhile isJsWhitespace).reverse

/-- `autoFixMarkdown(text, enabled)` (`App.tsx` lines 15-58), the auto-repair
engine `repair`:
1. unconditional spoiler-directive substitution (line 17);
2. `enabled = false` returns stage 1's output (line 19);
3. odd fence count: append a newline and one fence, return (lines 22-26);
4. odd block-formula count: append `$$`, return (lines 29-32);
5. odd backtick count on the last line: append a backtick, return (37-42);
6. bold regex matches: trim trailing whitespace, append `**`, return (46-49);
7. link regex matches: append `)`, return (53-55);
8. otherwise return stage 1's output unchanged (line 57). -/
def autoFixMarkdown (text : List Char) (enabled : Bool) : List Char :=
  let processedText := spoilerSubst text
  if !enabled then processedText
  else if countTriple processedText % 2 ≠ 0 then processedText ++ ['\n', '`', '`', '`']
  else if countDollarDollar processedText % 2 ≠ 0 then processedText ++ ['$', '$']
  else if (lastLine processedText).count '`' % 2 ≠ 0 then processedText ++ ['`']
  else if boldHeuristic processedText then trimEnd processedText ++ ['*', '*']
  else if linkHeuristic processedText then processedText ++ [')']
  else processedText

/-- The state owned by the `useSmartStream` hook (`App.tsx` lines 75-116):
`fullTextRef.current`, `indexRef.current` (the cursor `c`) and the published
`displayBuffer` (`D`). -/
structure StreamState where
  fullText : List Char
  index : Nat
  displayBuffer : List Char
deriving DecidableEq

/-- The hook's initial state (`App.tsx` lines 81-83): `useState('')`,
`useRef(fullText)`, `useRef(0)`. -/
def initState (fullText : List Char) : StreamState :=
  { fullText := fullText, index := 0, displayBuffer := [] }

/-- The `[fullText]` effect (`App.tsx` lines 85-91): store the new target;
only when it is strictly shorter than the cursor, clamp the cursor to its
length and republish the whole new text.  Otherwise neither the cursor nor
the display buffer is touched. -/
def targetChanged (newText : List Char) (st : StreamState) : StreamState :=
  if newText.length < st.index then
    { fullText := newText, index := newText.length, displayBuffer := newText }
  else
    { st with fullText := newText }

/-- One firing of the 50 ms interval callback (`App.tsx` lines 94-104).
`speed` is the integer drawn that tick from
`Math.floor(Math.random() * (maxSpeed - minSpeed + 1)) + minSpeed`; it is
taken as an arbitrary `Int` parameter, which covers every configuration of
`(minSpeed, maxSpeed)` — inverted, zero or negative ranges included.
`charsToAdd = Math.max(1, speed)` is at least 1, so its `Int.toNat` image is
faithful, and `nextCursor = Math.min(currentCursor + charsToAdd, length)`. -/
def tick (speed : Int) (st : StreamState) : StreamState :=
  if st.index < st.fullText.length then
    let charsToAdd : Nat := (max 1 speed).toNat
    let nextCursor : Nat := min (st.index + charsToAdd) st.fullText.length
    { fullText := st.fullText, index := nextCursor,
      displayBuffer := st.fullText.take nextCursor }
  else st

/-- The `[isStreaming, fullText]` effect when `isStreaming` is false
(`App.tsx` lines 108-113): snap the cursor to the end and publish the whole
target (full reveal). -/
def streamingDisabled (st : StreamState) : StreamState :=
  { fullText := st.fullText, index := st.fullText.length,
    displayBuffer := st.fullText }


theorem findClose_length :
    ∀ (l : List Char) (p : List Char × List Char), findClose l = some p → p.2.length < l.length := by
  intro l
  induction l with
  | nil => intro p h; simp [findClose] at h
  | cons c rest ih =>
    intro p h
    rw [findClose] at h
    split at h
    · cases h
      have := List.length_drop 2 rest
      simp only [this, List.length_cons]
      omega
    · split at h
      · cases h
      · cases hfc : findClose rest with
        | none => rw [hfc] at h; cases h
        | some q =>
          rw [hfc] at h
          cases h
          have := ih q hfc
          simp only [List.length_cons]
          omega

theorem spoilerScan_fuel_irrelevant :
    ∀ (f g : Nat) (l : List Char), l.length ≤ f → l.length ≤ g →
      spoilerScan f l = spoilerScan g l := by
  intro f
  induction f with
  | zero =>
    intro g l hf _
    have : l = [] := List.eq_nil_of_length_eq_zero (Nat.le_zero.mp hf)
    subst this
    cases g <;> rfl
  | succ f ih =>
    intro g l hf hg
    cases l with
    | nil => cases g <;> rfl
    | cons c rest =>
      cases g with
      | zero => simp at hg
      | succ g =>
        simp only [List.length_cons, Nat.add_le_add_iff_right] at hf hg
        simp only [spoilerScan]
        split
        · cases hfc : findClose (rest.drop 2) with
          | none => rw [ih g rest hf hg]
          | some p =>
            obtain ⟨content, rest2⟩ := p
            have hlt : rest2.length < rest.length := by
              have h1 := findClose_length _ _ hfc
              have h2 := List.length_drop 2 rest
              simp only at h1
              omega
            simp only [ih g rest2 (by omega) (by omega)]
        · rw [ih g rest hf hg]

/-- One-step unfolding of the stage-1 substitution. -/
theorem spoilerSubst_cons (c : Char) (rest : List Char) :
    spoilerSubst (c :: rest) =
      if c = '!' ∧ rest.take 2 = ['!', '!'] then
        match findClose (rest.drop 2) with
        | some (content, rest2) =>
          ':' :: 's' :: 'p' :: 'o' :: 'i' :: 'l' :: 'e' :: 'r' :: '[' ::
            (content ++ ']' :: spoilerSubst rest2)
        | none => c :: spoilerSubst rest
      else c :: spoilerSubst rest := by
  show spoilerScan (c :: rest).length (c :: rest) = _
  simp only [List.length_cons, spoilerScan]
  split
  · cases hfc : findClose (rest.drop 2) with
    | none => rfl
    | some p =>
      obtain ⟨content, rest2⟩ := p
      have hlt : rest2.length < rest.length := by
        have h1 := findClose_length _ _ hfc
        have h2 := List.length_drop 2 rest
        simp only at h1
        omega
      have : spoilerScan rest.length rest2 = spoilerSubst rest2 :=
        spoilerScan_fuel_irrelevant rest.length rest2.length rest2 (by omega) le_rfl
      simp only [this]
  · rfl

theorem spoilerSubst_nil : spoilerSubst [] = [] := rfl

theorem spoilerSubst_cons_of_ne (c : Char) (rest : List Char) (h : c ≠ '!') :
    spoilerSubst (c :: rest) = c :: spoilerSubst rest := by
  rw [spoilerSubst_cons, if_neg]
  exact fun hc => h hc.1

theorem spoilerSubst_cons_of_take (c : Char) (rest : List Char) (h : rest.take 2 ≠ ['!', '!']) :
    spoilerSubst (c :: rest) = c :: spoilerSubst rest := by
  rw [spoilerSubst_cons, if_neg]
  exact fun hc => h hc.2

theorem spoilerSubst_bang_none (rest : List Char) (h : findClose rest = none) :
    spoilerSubst ('!' :: '!' :: '!' :: rest) = '!' :: spoilerSubst ('!' :: '!' :: rest) := by
  rw [spoilerSubst_cons, if_pos ⟨rfl, rfl⟩]
  simp only [List.drop_succ_cons, List.drop_zero, h]

/-- A `!`-free chunk is copied verbatim by the scanner. -/
theorem spoilerSubst_append_of_ne (x r : List Char) (hx : ∀ c ∈ x, c ≠ '!') :
    spoilerSubst (x ++ r) = x ++ spoilerSubst r := by
  induction x with
  | nil => simp
  | cons c x ih =>
    have hc : c ≠ '!' := hx c (by simp)
    have hx' : ∀ d ∈ x, d ≠ '!' := fun d hd => hx d (by simp [hd])
    simp only [List.cons_append]
    rw [spoilerSubst_cons_of_ne c _ hc, ih hx']

/-- Crossing a newline is impossible for the lazy close search when no `!`
precedes the newline. -/
theorem findClose_of_newline (a z : List Char) (ha : ∀ c ∈ a, c ≠ '!') :
    findClose (a ++ '\n' :: z) = none := by
  induction a with
  | nil =>
    rw [List.nil_append, findClose]
    rw [if_neg (fun hc => by simpa using hc.1), if_pos rfl]
  | cons c a ih =>
    have hc : c ≠ '!' := ha c (by simp)
    have ha' : ∀ d ∈ a, d ≠ '!' := fun d hd => ha d (by simp [hd])
    rw [List.cons_append, findClose, if_neg (fun h => hc h.1)]
    by_cases hcn : c = '\n'
    · rw [if_pos hcn]
    · rw [if_neg hcn, ih ha']
      rfl

/-- Two leading `!` followed by a `!`-free chunk and a newline are copied
verbatim: no `!!!` opener can start inside them. -/
theorem spoilerSubst_two_bangs (a z : List Char) (ha : ∀ c ∈ a, c ≠ '!') :
    spoilerSubst ('!' :: '!' :: (a ++ '\n' :: z)) =
      '!' :: '!' :: (a ++ '\n' :: spoilerSubst z) := by
  cases a with
  | nil =>
    simp only [List.nil_append]
    rw [spoilerSubst_cons_of_take _ _ (by simp),
        spoilerSubst_cons_of_take _ _ (by simp),
        spoilerSubst_cons_of_ne '\n' _ (by decide)]
  | cons c a =>
    have hc : c ≠ '!' := ha c (by simp)
    have ha' : ∀ d ∈ a, d ≠ '!' := fun d hd => ha d (by simp [hd])
    simp only [List.cons_append]
    rw [spoilerSubst_cons_of_take _ _ (by simp [hc]),
        spoilerSubst_cons_of_take _ _ (by simp [hc]),
        spoilerSubst_cons_of_ne c _ hc,
        spoilerSubst_append_of_ne a _ ha',
        spoilerSubst_cons_of_ne '\n' _ (by decide)]

/-- `boldAtHere` characterised: the anchored bold regex matches iff the list
is `**` followed by a `*`-free suffix. -/
theorem boldAtHere_eq_true_iff (l : List Char) :
    boldAtHere l = true ↔
      ∃ v, l = '*' :: '*' :: v ∧ v.all (fun c => c != '*') = true := by
  rcases l with _ | ⟨c1, _ | ⟨c2, rest⟩⟩
  · simp [boldAtHere]
  · simp [boldAtHere]
  · simp [boldAtHere, and_assoc]

/-- `boldHeuristic` characterised: `/\*\*[^\*]*\s*$/.test` succeeds iff some
occurrence of `**` is followed only by non-`*` characters up to the end. -/
theorem boldHeuristic_eq_true_iff (l : List Char) :
    boldHeuristic l = true ↔
      ∃ u v, l = u ++ '*' :: '*' :: v ∧ v.all (fun c => c != '*') = true := by
  induction l with
  | nil => simp [boldHeuristic]
  | cons c rest ih =>
    simp only [boldHeuristic, Bool.or_eq_true, ih, boldAtHere_eq_true_iff]
    constructor
    · rintro (⟨v, hv, hall⟩ | ⟨u, v, huv, hall⟩)
      · exact ⟨[], v, by simp [hv], hall⟩
      · exact ⟨c :: u, v, by simp [huv], hall⟩
    · rintro ⟨u, v, huv, hall⟩
      cases u with
      | nil => exact Or.inl ⟨v, by simpa using huv, hall⟩
      | cons d u =>
        simp only [List.cons_append, List.cons.injEq] at huv
        exact Or.inr ⟨u, v, huv.2, hall⟩

/-- C3: for every text whose count of triple-backtick fence markers after the
stage-1 directive normalization is odd, `repair(text, true)` returns the
stage-1 text with exactly a newline and one fence marker appended — the call
returns immediately, so no other repair stage (block formula, inline code,
bold, link) contributes. -/
theorem fence_repair_exclusive (text : List Char)
    (h : countTriple (spoilerSubst text) % 2 = 1) :
    autoFixMarkdown text true = spoilerSubst text ++ ['\n', '`', '`', '`'] := by
  simp [autoFixMarkdown, h]

/-- C3 witness: `repair("```js\ncode", true)` appends only the closing
fence. -/
theorem fence_repair_exclusive_witness :
    countTriple (spoilerSubst (("```js\ncode").data)) % 2 = 1 ∧
    autoFixMarkdown (("```js\ncode").data) true =
      spoilerSubst (("```js\ncode").data) ++ ['\n', '`', '`', '`'] ∧
    autoFixMarkdown (("```js\ncode").data) true = ("```js\ncode\n```").data :=
  ⟨by decide, fence_repair_exclusive (("```js\ncode").data) (by decide), by decide⟩

/-- C4: the spoiler-directive substitution runs regardless of `enabled`: with
`enabled = false`, `repair` returns exactly the stage-1 output for every
text, and on `"a !!!b!!! c"` both flag values produce the spoiler directive
form `"a :spoiler[b] c"`. -/
theorem directive_substitution_unconditional :
    (∀ text : List Char, autoFixMarkdown text false = spoilerSubst text) ∧
    autoFixMarkdown (("a !!!b!!! c").data) false = ("a :spoiler[b] c").data ∧
    autoFixMarkdown (("a !!!b!!! c").data) true = ("a :spoiler[b] c").data :=
  ⟨fun _ => rfl, by decide, by decide⟩

/-- C1 counterexample: `repair("**bold** and `code` and [a](b)", true)` does
not return its input unchanged, although every construct in it is balanced
(stage 1 leaves it unchanged; fence, block-formula and final-line backtick
counts are even; the link destination is closed).  The bold regex
`\*\*[^\*]*\s*$` also matches the <em>closing</em> `**` of `**bold**` — no
`*` follows it — so the bold stage fires and appends `**`. -/
theorem autoFix_balanced_noop_counterexample :
    spoilerSubst (("**bold** and `code` and [a](b)").data) =
      ("**bold** and `code` and [a](b)").data ∧
    autoFixMarkdown (("**bold** and `code` and [a](b)").data) true =
      ("**bold** and `code` and [a](b)**").data ∧
    autoFixMarkdown (("**bold** and `code` and [a](b)").data) true ≠
      ("**bold** and `code` and [a](b)").data :=
  ⟨by decide, by decide, by decide⟩

/-- C1 amended: `repair(text, true)` returns stage 1's output unchanged for
every input on which none of the five repair detectors fires after stage 1 —
even fence count, even block-formula count, even backtick count on the final
line, no match of the bold regex and no match of the link regex.  (The
quoted example is not such an input: its closing `**` is followed by no
further `*`, so the bold detector fires and `**` is appended.) -/
theorem autoFix_noop_of_no_detector (text : List Char)
    (h1 : countTriple (spoilerSubst text) % 2 = 0)
    (h2 : countDollarDollar (spoilerSubst text) % 2 = 0)
    (h3 : (lastLine (spoilerSubst text)).count '`' % 2 = 0)
    (h4 : boldHeuristic (spoilerSubst text) = false)
    (h5 : linkHeuristic (spoilerSubst text) = false) :
    autoFixMarkdown text true = spoilerSubst text := by
  simp [autoFixMarkdown, h1, h2, h3, h4, h5]

/-- C1 amended witness: a balanced text on which no detector fires passes
through unchanged. -/
theorem autoFix_noop_of_no_detector_witness :
    autoFixMarkdown (("hello `x` [a](b)").data) true =
      spoilerSubst (("hello `x` [a](b)").data) :=
  autoFix_noop_of_no_detector _ (by decide) (by decide) (by decide) (by decide)
    (by decide)

/-- C8 counterexample: `"```\n**bold "` ends in a `**` opener followed only by
non-asterisk characters and trailing whitespace, yet `repair` does not trim
and close the bold: the odd fence count takes precedence, the call appends
`"\n```"` and returns. -/
theorem bold_trim_counterexample :
    ("```\n**bold ").data = ("```\n").data ++ '*' :: '*' :: ("bold ").data ∧
    ("bold ").data.all (fun c => c != '*') = true ∧
    autoFixMarkdown (("```\n**bold ").data) true =
      ("```\n**bold ").data ++ ['\n', '`', '`', '`'] ∧
    autoFixMarkdown (("```\n**bold ").data) true ≠
      trimEnd (("```\n**bold ").data) ++ ['*', '*'] :=
  ⟨by decide, by decide, by decide, by decide⟩

/-- C8 amended: when no earlier repair stage applies after stage 1 (even
fence count, even block-formula count, even backtick count on the final line)
and the stage-1 text contains a `**` followed only by non-asterisk characters
up to the end of the string (trailing whitespace included, as whitespace is
not `*`), `repair(text, true)` trims trailing whitespace before appending the
closing `**`. -/
theorem bold_trim_amended (text : List Char)
    (h1 : countTriple (spoilerSubst text) % 2 = 0)
    (h2 : countDollarDollar (spoilerSubst text) % 2 = 0)
    (h3 : (lastLine (spoilerSubst text)).count '`' % 2 = 0)
    (h4 : ∃ u v, spoilerSubst text = u ++ '*' :: '*' :: v ∧
      v.all (fun c => c != '*') = true) :
    autoFixMarkdown text true = trimEnd (spoilerSubst text) ++ ['*', '*'] := by
  have hb : boldHeuristic (spoilerSubst text) = true :=
    (boldHeuristic_eq_true_iff _).2 h4
  simp [autoFixMarkdown, h1, h2, h3, hb]

/-- C8 amended witness: `repair("text **bold   ", true) = "text **bold**"` —
the trailing spaces are removed before the closer is appended. -/
theorem bold_trim_amended_witness :
    autoFixMarkdown (("text **bold   ").data) true =
      trimEnd (spoilerSubst (("text **bold   ").data)) ++ ['*', '*'] ∧
    autoFixMarkdown (("text **bold   ").data) true = ("text **bold**").data :=
  ⟨bold_trim_amended _ (by decide) (by decide) (by decide)
      ⟨("text ").data, ("bold   ").data, by decide, by decide⟩,
   by decide⟩

/-- C9: a triple-bang span whose content contains a newline is not rewritten
by the directive normalization: the regex `/!!!(.*?)!!!/g` only matches spans
whose delimiters and content lie on a single line (`.` does not match a
newline), so `!!!a\nb!!!`-shaped text passes through stage 1 unchanged.  The
hypotheses keep the split-content pieces free of `!`, so that the delimiters
shown are the only candidate markers. -/
theorem spoiler_newline_passthrough (a b : List Char)
    (ha : ∀ c ∈ a, c ≠ '!') (hb : ∀ c ∈ b, c ≠ '!') :
    spoilerSubst ('!' :: '!' :: '!' :: (a ++ '\n' :: (b ++ ['!', '!', '!']))) =
      '!' :: '!' :: '!' :: (a ++ '\n' :: (b ++ ['!', '!', '!'])) := by
  rw [spoilerSubst_bang_none _ (findClose_of_newline a _ ha),
      spoilerSubst_two_bangs a _ ha,
      spoilerSubst_append_of_ne b _ hb,
      show spoilerSubst ['!', '!', '!'] = ['!', '!', '!'] from by decide]

/-- C9 witness: `"!!!a\nb!!!"` passes through stage 1 unchanged. -/
theorem spoiler_newline_passthrough_witness :
    spoilerSubst (("!!!a\nb!!!").data) = ("!!!a\nb!!!").data :=
  spoiler_newline_passthrough ['a'] ['b'] (by decide) (by decide)

/-- C2 counterexample: replace the fully revealed target `"ab"` by the
different same-length text `"xy"` while the cursor is unchanged.  The
`[fullText]` effect only recomputes the display buffer when the new text is
strictly shorter than the cursor, so the published buffer still holds `"ab"`
while `T[0:c] = "xy"` — and since `c = length(T)`, every later tick is a
no-op and the buffer never catches up. -/
theorem display_inv_counterexample :
    (targetChanged (("xy").data) (tick 5 (initState (("ab").data)))).displayBuffer ≠
      (targetChanged (("xy").data) (tick 5 (initState (("ab").data)))).fullText.take
        (targetChanged (("xy").data) (tick 5 (initState (("ab").data)))).index := by
  decide

/-- C2 amended: `D = T[0:c]` holds in the initial state and is preserved by
every tick, by disabling streaming, and by a target replacement strictly
shorter than the cursor.  A replacement by a same-length-or-longer text does
not recompute `D`, which keeps the old text's prefix until the next
productive tick (forever, when `c ≥ length(new T)`). -/
theorem display_inv_preserved (st : StreamState) (speed : Int) (u t : List Char)
    (h : st.displayBuffer = st.fullText.take st.index) :
    (initState t).displayBuffer = (initState t).fullText.take (initState t).index ∧
    (tick speed st).displayBuffer = (tick speed st).fullText.take (tick speed st).index ∧
    (streamingDisabled st).displayBuffer =
      (streamingDisabled st).fullText.take (streamingDisabled st).index ∧
    (u.length < st.index →
      (targetChanged u st).displayBuffer =
        (targetChanged u st).fullText.take (targetChanged u st).index) := by
  refine ⟨by simp [initState], ?_, by simp [streamingDisabled], ?_⟩
  · unfold tick
    split
    · simp
    · exact h
  · intro hu
    unfold targetChanged
    rw [if_pos hu]
    simp

/-- C2 amended witness: the invariant after one productive tick from the
initial state. -/
theorem display_inv_preserved_witness :
    (tick 3 (⟨("ab").data, 1, ("a").data⟩ : StreamState)).displayBuffer =
      (tick 3 (⟨("ab").data, 1, ("a").data⟩ : StreamState)).fullText.take
        (tick 3 (⟨("ab").data, 1, ("a").data⟩ : StreamState)).index :=
  (display_inv_preserved (⟨("ab").data, 1, ("a").data⟩ : StreamState) 3 [] []
      (by decide)).2.1

/-- C5: for a fixed target and any drawn `speed`, a tick with `c < length(T)`
moves the cursor to `min(c + max(1, speed), length(T))` — strictly forward —
and neither the cursor nor the display buffer's length ever exceeds
`length(T)`; a tick with `c ≥ length(T)` leaves the state unchanged. -/
theorem tick_monotone_convergence (st : StreamState) (speed : Int) :
    (st.index < st.fullText.length →
      (tick speed st).index = min (st.index + (max 1 speed).toNat) st.fullText.length ∧
      st.index < (tick speed st).index ∧
      (tick speed st).index ≤ st.fullText.length ∧
      (tick speed st).displayBuffer.length ≤ st.fullText.length) ∧
    (st.fullText.length ≤ st.index → tick speed st = st) := by
  constructor
  · intro h
    have h1 : 1 ≤ (max 1 speed).toNat := by
      have := le_max_left (1 : Int) speed
      omega
    unfold tick
    rw [if_pos h]
    dsimp only
    refine ⟨rfl, by omega, by omega, ?_⟩
    simp only [List.length_take]
    omega
  · intro h
    unfold tick
    rw [if_neg (by omega)]

/-- C5 witness: a productive tick on `"hello"` at cursor 1 and an idle tick at
the end of `"hi"`. -/
theorem tick_monotone_convergence_witness :
    (1 < (tick 2 (⟨("hello").data, 1, ("h").data⟩ : StreamState)).index ∧
      (tick 2 (⟨("hello").data, 1, ("h").data⟩ : StreamState)).index ≤
        (("hello").data).length) ∧
    tick 2 (⟨("hi").data, 2, ("hi").data⟩ : StreamState) =
      (⟨("hi").data, 2, ("hi").data⟩ : StreamState) :=
  ⟨⟨((tick_monotone_convergence (⟨("hello").data, 1, ("h").data⟩ : StreamState) 2).1
        (by decide)).2.1,
    ((tick_monotone_convergence (⟨("hello").data, 1, ("h").data⟩ : StreamState) 2).1
        (by decide)).2.2.1⟩,
   (tick_monotone_convergence (⟨("hi").data, 2, ("hi").data⟩ : StreamState) 2).2
      (by decide)⟩

/-- C6: disabling streaming snaps the cursor to `length(T)` and publishes `T`
itself, whatever the prior cursor; the disabled state is a fixed point of
every sequence of subsequent ticks, so the buffer stays equal to `T`. -/
theorem disable_full_reveal (st : StreamState) :
    (streamingDisabled st).index = st.fullText.length ∧
    (streamingDisabled st).displayBuffer = st.fullText ∧
    ∀ speeds : List Int,
      speeds.foldl (fun s sp => tick sp s) (streamingDisabled st) =
        streamingDisabled st := by
  refine ⟨rfl, rfl, ?_⟩
  have hfix : ∀ sp : Int, tick sp (streamingDisabled st) = streamingDisabled st := by
    intro sp
    unfold tick streamingDisabled
    rw [if_neg (lt_irrefl _)]
  intro speeds
  induction speeds with
  | nil => rfl
  | cons sp speeds ih => rw [List.foldl_cons, hfix sp, ih]

/-- C7: replacing the target by a text `u` shorter than the cursor clamps the
cursor to `min(c, length(u)) = length(u)` at once and republishes
`u[0:min(c, length(u))]` without waiting for a tick; the new cursor never
exceeds `length(u)`. -/
theorem truncation_safety (st : StreamState) (u : List Char)
    (h : u.length < st.index) :
    (targetChanged u st).fullText = u ∧
    (targetChanged u st).index = min st.index u.length ∧
    (targetChanged u st).displayBuffer = u.take (min st.index u.length) ∧
    (targetChanged u st).index ≤ u.length := by
  have hmin : min st.index u.length = u.length := Nat.min_eq_right (Nat.le_of_lt h)
  unfold targetChanged
  rw [if_pos h]
  exact ⟨rfl, by simp [hmin], by simp [hmin], by simp⟩

/-- C7 witness: truncating `"abcde"` (cursor 4) to `"xy"`. -/
theorem truncation_safety_witness :
    (targetChanged (("xy").data) (⟨("abcde").data, 4, ("abcd").data⟩ : StreamState)).displayBuffer =
      ("xy").data.take (min 4 (("xy").data).length) ∧
    (targetChanged (("xy").data) (⟨("abcde").data, 4, ("abcd").data⟩ : StreamState)).index ≤
      (("xy").data).length :=
  ⟨(truncation_safety (⟨("abcde").data, 4, ("abcd").data⟩ : StreamState) (("xy").data)
      (by decide)).2.2.1,
   (truncation_safety (⟨("abcde").data, 4, ("abcd").data⟩ : StreamState) (("xy").data)
      (by decide)).2.2.2⟩

/-- C10: for every numeric `speed` — including values drawn from an inverted,
zero or negative `(min, max)` range — a tick with `c < length(T)` advances
the cursor by at least 1 and never decreases it: the step is clamped below by
`Math.max(1, speed)` and the new cursor clamped above by `length(T)`. -/
theorem tick_defensive_clamp (speed : Int) (st : StreamState)
    (h : st.index < st.fullText.length) :
    st.index < (tick speed st).index ∧
    (tick speed st).index ≤ st.fullText.length ∧
    st.index ≤ (tick speed st).index := by
  have h1 : 1 ≤ (max 1 speed).toNat := by
    have := le_max_left (1 : Int) speed
    omega
  unfold tick
  rw [if_pos h]
  dsimp only
  exact ⟨by omega, by omega, by omega⟩

/-- C10 witness: a tick with the negative drawn speed `-7` still advances the
cursor and stays within the target. -/
theorem tick_defensive_clamp_witness :
    1 < (tick (-7) (⟨("hello").data, 1, ("h").data⟩ : StreamState)).index ∧
    (tick (-7) (⟨("hello").data, 1, ("h").data⟩ : StreamState)).index ≤
      (("hello").data).length :=
  ⟨(tick_defensive_clamp (-7) (⟨("hello").data, 1, ("h").data⟩ : StreamState)
      (by decide)).1,
   (tick_defensive_clamp (-7) (⟨("hello").data, 1, ("h").data⟩ : StreamState)
      (by decide)).2.1⟩

end LlmMarkdown
